import Mathlib

/-!
Verification of the `InputController` engine (src/src/inputcontroller.cpp).

The controller converts relative pointer motion into synthetic key presses,
gated by an activation key, with a probabilistic acceptance policy, device
allow/block brand filtering, and a cross-thread access-negotiation protocol.

Shallow embedding conventions used throughout this file:
* Qt strings (`QString`) are modelled as lists of Unicode code points
  (`List Nat`); `QString::toLower` is modelled on the ASCII range and
  `QString::trimmed` removes the ASCII whitespace characters plus NBSP.
* `double` motion deltas are modelled as rationals (`ℚ`); the comparisons the
  code performs on them (absolute value, sign tests, threshold test) are exact.
* The two random draws in `shouldApplyMotion` (a percent from
  `uniform_int_distribution(minimum, maximum)` and a unit real from
  `uniform_real_distribution(0,1)`) are passed in as oracle arguments; theorems
  assume only what the distributions guarantee (`minimum ≤ percent ≤ maximum`,
  `0 ≤ u < 1`).
* Session state transitions are modelled at the dispatch level
  (`processEvent`) and at the loop-iteration level (`runIteration`), with
  `Reachable` describing every state the worker loop can be in at an
  iteration boundary.  `m_uinputFd` is taken to be open (the loop only
  dispatches events after `setupUinput` succeeded) and uinput writes succeed;
  the `downA`/`downD` fields record the key-down state of the two bound key
  codes of the virtual device as produced by the emitted `sendKeyEvent`
  key-down/key-up events.
-/

/-- Code points of the characters `QString::trimmed` removes at the ends
(ASCII whitespace and non-breaking space). -/
def isSpaceChar (c : Nat) : Bool :=
  c == 32 || c == 9 || c == 10 || c == 11 || c == 12 || c == 13 || c == 160

/-- ASCII model of `QChar` lowering used by `QString::toLower`. -/
def lowerChar (c : Nat) : Nat :=
  if 65 ≤ c ∧ c ≤ 90 then c + 32 else c

/-- A `QString`, as a list of code points. -/
abbrev Str := List Nat

/-- `QString::toLower`. -/
def lowerStr (s : Str) : Str := s.map lowerChar

/-- `QString::trimmed`: drop leading then trailing whitespace. -/
def trimStr (s : Str) : Str :=
  (s.dropWhile isSpaceChar).rdropWhile isSpaceChar

/-- Does the second list occur at the head of the first? (helper for
substring containment, mirroring `QString::contains`). -/
def leadsWith : Str → Str → Bool
  | [], _ => true
  | _ :: _, [] => false
  | a :: as, b :: bs => a == b && leadsWith as bs

/-- `QString::contains(entry)`: the pattern occurs contiguously somewhere in
the string (the first argument is the haystack). -/
def containsSeg : Str → Str → Bool
  | [], pat => pat.isEmpty
  | a :: t, pat => leadsWith pat (a :: t) || containsSeg t pat

/-- Code points of a string literal (for writing `QStringLiteral` constants). -/
def litStr (s : String) : Str := s.data.map Char.toNat

/-- The synthetic output device's identity substring,
`QStringLiteral("mousedirectionbinder")`. -/
def binderStr : Str := litStr "mousedirectionbinder"

/-! ## Device classifier (`isPointerDeviceAllowed` / `isKeyboardDeviceAllowed`) -/

/-- The capability flags and name of a `libinput_device`. -/
structure Device where
  name : Str
  hasPointerCap : Bool
  hasGestureCap : Bool
  hasKeyboardCap : Bool
  deriving DecidableEq, Repr

/-- One allow/block scan loop of the classifiers: some non-empty entry of the
list is contained in the device name. -/
def brandMatch (deviceName : Str) (entries : List Str) : Bool :=
  entries.any fun e => !e.isEmpty && containsSeg deviceName e

/-- `InputController::isPointerDeviceAllowed`.  A null device pointer is
modelled as `none`; the brand lists (read under `m_deviceMutex` in the code)
are passed explicitly. -/
def isPointerDeviceAllowed (device : Option Device) (allowed blocked : List Str) : Bool :=
  match device with
  | none => false
  | some d =>
    if !d.hasPointerCap && !d.hasGestureCap then false
    else
      let deviceName := lowerStr d.name
      if brandMatch deviceName blocked then false
      else if allowed.isEmpty then true
      else brandMatch deviceName allowed

/-- `InputController::isKeyboardDeviceAllowed`. -/
def isKeyboardDeviceAllowed (device : Option Device) (allowed blocked : List Str) : Bool :=
  match device with
  | none => false
  | some d =>
    if !d.hasKeyboardCap then false
    else
      let deviceName := lowerStr d.name
      if brandMatch deviceName blocked then false
      else if allowed.isEmpty then true
      else brandMatch deviceName allowed

/-! ## Brand-filter setters (`setPointerBrandFilters` / `setKeyboardBrandFilters`) -/

/-- The four stored brand lists of the controller. -/
structure FilterState where
  pointerAllowedBrands : List Str
  pointerBlockedBrands : List Str
  keyboardAllowedBrands : List Str
  keyboardBlockedBrands : List Str
  deriving DecidableEq, Repr

/-- The loop body of the anonymous-namespace helper `normalisedBrands`:
trim and lower each entry, skip empty results and entries already present. -/
def normalisedBrandsAux (output : List Str) : List Str → List Str
  | [] => output
  | entry :: rest =>
    let trimmed := trimStr (lowerStr entry)
    if !trimmed.isEmpty && !output.contains trimmed then
      normalisedBrandsAux (output ++ [trimmed]) rest
    else
      normalisedBrandsAux output rest

/-- The anonymous-namespace helper `normalisedBrands`. -/
def normalisedBrands (input : List Str) : List Str := normalisedBrandsAux [] input

/-- `InputController::setPointerBrandFilters`. -/
def setPointerBrandFilters (allowed blocked : List Str) (s : FilterState) : FilterState :=
  let pa := normalisedBrands allowed
  let pb := normalisedBrands blocked
  let pb := if pb.contains binderStr then pb else pb ++ [binderStr]
  { s with pointerAllowedBrands := pa, pointerBlockedBrands := pb }

/-- `InputController::setKeyboardBrandFilters`. -/
def setKeyboardBrandFilters (allowed blocked : List Str) (s : FilterState) : FilterState :=
  let ka := normalisedBrands allowed
  let kb := normalisedBrands blocked
  let kb := if kb.contains binderStr then kb else kb ++ [binderStr]
  { s with keyboardAllowedBrands := ka, keyboardBlockedBrands := kb }

/-! ## Randomizer (`setRandomizerRange` / `shouldApplyMotion`) -/

/-- `std::clamp` on `int`. -/
def clampI (v lo hi : Int) : Int :=
  if v < lo then lo else if hi < v then hi else v

/-- The randomizer portion of the controller configuration
(`m_randomizerEnabled`, `m_randomizerMinimum`, `m_randomizerMaximum`). -/
structure RandomizerConfig where
  enabled : Bool
  minimum : Int
  maximum : Int
  deriving DecidableEq, Repr

/-- The member initialisers of the randomizer fields
(`false`, `70`, `90`). -/
def initRandomizer : RandomizerConfig :=
  { enabled := false, minimum := 70, maximum := 90 }

/-- `InputController::setRandomizerEnabled`. -/
def setRandomizerEnabled (enabled : Bool) (c : RandomizerConfig) : RandomizerConfig :=
  { c with enabled := enabled }

/-- `InputController::setRandomizerRange`: each argument is clamped to
`[0, 100]` and stored.  (The code performs no swap here.) -/
def setRandomizerRange (minimumPercent maximumPercent : Int) (c : RandomizerConfig) :
    RandomizerConfig :=
  { c with
    minimum := clampI minimumPercent 0 100
    maximum := clampI maximumPercent 0 100 }

/-- The normalisation `shouldApplyMotion` performs on the loaded pair before
drawing: swap if inverted, then clamp each bound to `[0, 100]`. -/
def effectiveRange (minimum maximum : Int) : Int × Int :=
  let p := if maximum < minimum then (maximum, minimum) else (minimum, maximum)
  (clampI p.1 0 100, clampI p.2 0 100)

/-- `InputController::shouldApplyMotion`.  The two random draws are oracle
arguments: `percent` is the value produced by
`uniform_int_distribution(minimum, maximum)` and `u` the value produced by
`m_unitDistribution` (uniform on `[0,1)`). -/
def shouldApplyMotion (c : RandomizerConfig) (percent : Int) (u : ℚ) : Bool :=
  if !c.enabled then true
  else
    let r := effectiveRange c.minimum c.maximum
    if r.2 = 0 then false
    else decide (u ≤ (percent : ℚ) / 100)

/-! ## Session state machine (worker loop of `InputController::run`) -/

/-- The fixed motion threshold `kMotionThreshold = 0.4`. -/
def kMotionThreshold : ℚ := 2 / 5

/-- The fixed idle-release window `kIdleReleaseInterval = 150ms`
(times are in milliseconds of the steady clock). -/
def kIdleReleaseInterval : Nat := 150

/-- `m_keycodeA = KEY_A`. -/
def keycodeA : Nat := 30

/-- `m_keycodeD = KEY_D`. -/
def keycodeD : Nat := 32

/-- `KEY_LEFTSHIFT`, the initial activation key code. -/
def keyLeftShift : Nat := 42

/-- The `statusChanged` notifications the loop can emit. -/
inductive Status
  | paused
  | active
  | keyHeld (keycode : Nat)
  | reconfigured
  deriving DecidableEq, Repr

/-- The worker-side session state: activation gate, held synthetic key,
idle timer, the key-down state of the two bound codes on the virtual output
device, and the log of emitted `statusChanged` notifications. -/
structure SessionState where
  activationKeycode : Nat
  activationPressed : Bool
  heldKeycode : Nat
  lastMotion : Nat
  downA : Bool
  downD : Bool
  log : List Status
  deriving DecidableEq, Repr

/-- `InputController::sendKeyEvent` (with the uinput writes succeeding):
its effect on the virtual device's key-down state for the two bound codes. -/
def sendKeyEvent (s : SessionState) (keycode : Nat) (value : Nat) : SessionState :=
  if keycode = keycodeA then { s with downA := value == 1 }
  else if keycode = keycodeD then { s with downD := value == 1 }
  else s

/-- `InputController::releaseKey`. -/
def releaseKey (s : SessionState) (keycode : Nat) : SessionState :=
  if keycode = 0 then s else sendKeyEvent s keycode 0

/-- `InputController::releaseActiveKey`. -/
def releaseActiveKey (s : SessionState) : SessionState :=
  if s.heldKeycode = 0 then s
  else { releaseKey s s.heldKeycode with heldKeycode := 0 }

/-- `InputController::pressKey`. -/
def pressKey (s : SessionState) (keycode : Nat) : SessionState :=
  if keycode = 0 then s
  else if s.heldKeycode = keycode then s
  else
    let s1 := sendKeyEvent (releaseActiveKey s) keycode 1
    { s1 with heldKeycode := keycode, log := s1.log ++ [Status.keyHeld keycode] }

/-- `InputController::handlePointerMotion`.  `deviceOk` is the result of
`isPointerDeviceAllowed` for the event's device, `dx`/`dxRaw` the accelerated
and unaccelerated delta-X samples, `accept` the outcome of
`shouldApplyMotion`, and `now` the steady-clock time of the dispatch.
(`updatePointerDevice` touches only the descriptor-reporting fields, which
are not part of this state.) -/
def handlePointerMotion (s : SessionState) (deviceOk : Bool) (dx dxRaw : ℚ)
    (accept : Bool) (now : Nat) : SessionState :=
  if !deviceOk then s
  else if !s.activationPressed then releaseActiveKey s
  else
    let deltaX := if |dxRaw| > |dx| then dxRaw else dx
    if |deltaX| < kMotionThreshold then s
    else
      let s1 := { s with lastMotion := now }
      if !accept then releaseActiveKey s1
      else if deltaX < 0 then pressKey s1 keycodeA
      else if deltaX > 0 then pressKey s1 keycodeD
      else s1

/-- `InputController::handleKeyboardKey`.  `deviceOk` is the result of
`isKeyboardDeviceAllowed`, `key` the event's key code, `pressed` whether the
event state is `LIBINPUT_KEY_STATE_PRESSED`. -/
def handleKeyboardKey (s : SessionState) (deviceOk : Bool) (key : Nat)
    (pressed : Bool) : SessionState :=
  if !deviceOk then s
  else if key ≠ s.activationKeycode then s
  else if pressed == s.activationPressed then s
  else
    let s1 := { s with activationPressed := pressed }
    if !pressed then
      let s2 := releaseActiveKey s1
      { s2 with log := s2.log ++ [Status.paused] }
    else
      { s1 with log := s1.log ++ [Status.active] }

/-- `InputController::applyPendingActivation`.  `dirty` and `pendingKeycode`
are the staged pair read under `m_activationMutex`. -/
def applyPendingActivation (s : SessionState) (dirty : Bool) (pendingKeycode : Nat) :
    SessionState :=
  if !dirty then s
  else if pendingKeycode = 0 then s
  else
    let s1 := { s with activationKeycode := pendingKeycode, activationPressed := false }
    let s2 := releaseActiveKey s1
    { s2 with log := s2.log ++ [Status.reconfigured] }

/-- The idle-release check at the bottom of each iteration of
`InputController::run`. -/
def idleCheck (s : SessionState) (now : Nat) : SessionState :=
  if s.heldKeycode ≠ 0 ∧ kIdleReleaseInterval < now - s.lastMotion then
    let s1 := releaseActiveKey s
    { s1 with log := s1.log ++ [Status.paused] }
  else s

/-- A typed libinput event as dispatched by `InputController::processEvent`.
Device-added/removed events touch only the descriptor-reporting fields. -/
inductive Event
  | pointerMotion (deviceOk : Bool) (dx dxRaw : ℚ) (accept : Bool) (now : Nat)
  | keyboardKey (deviceOk : Bool) (key : Nat) (pressed : Bool)
  | deviceAdded
  | deviceRemoved

/-- `InputController::processEvent`. -/
def processEvent (s : SessionState) : Event → SessionState
  | .pointerMotion deviceOk dx dxRaw accept now =>
      handlePointerMotion s deviceOk dx dxRaw accept now
  | .keyboardKey deviceOk key pressed => handleKeyboardKey s deviceOk key pressed
  | .deviceAdded => s
  | .deviceRemoved => s

/-- One iteration of the `while (!isInterruptionRequested())` loop of
`InputController::run`: apply the pending activation, dispatch the polled
events, then run the idle-release check at time `now`. -/
def runIteration (s : SessionState) (dirty : Bool) (pendingKeycode : Nat)
    (events : List Event) (now : Nat) : SessionState :=
  idleCheck (events.foldl processEvent (applyPendingActivation s dirty pendingKeycode)) now

/-- The session state when the loop starts (member initialisers of
`InputController`). -/
def initState : SessionState :=
  { activationKeycode := keyLeftShift
    activationPressed := false
    heldKeycode := 0
    lastMotion := 0
    downA := false
    downD := false
    log := [] }

/-- The session states the worker loop can be in at an iteration boundary. -/
inductive Reachable : SessionState → Prop
  | init : Reachable initState
  | step (s : SessionState) (dirty : Bool) (pendingKeycode : Nat)
      (events : List Event) (now : Nat) :
      Reachable s → Reachable (runIteration s dirty pendingKeycode events now)

/-! ## Device-open retry loop (`InputController::openRestricted`) -/

/-- The outcome of one `open(path, flags | O_CLOEXEC)` attempt. -/
inductive OpenResult
  | ok (fd : Int)
  | err (errno : Int)
  deriving DecidableEq, Repr

/-- `errno == EACCES || errno == EPERM`, the permission-error test of
`openRestricted`. -/
def isPermissionError (e : Int) : Bool := e == 13 || e == 1

/-- The `for (;;)` loop of `InputController::openRestricted`, driven by the
trace of outcomes of the successive `open` attempts and the trace of
decisions returned by the successive `requestDeviceAccess` calls.  Returns
`(return value, open attempts performed, negotiations performed)`; `none`
means the supplied traces were exhausted before the loop returned.  The
counters start from `attempts`/`negotiations`. -/
def openRestrictedRun : List OpenResult → List Bool → Nat → Nat →
    Option (Int × Nat × Nat)
  | [], _, _, _ => none
  | .ok fd :: _, _, attempts, negotiations => some (fd, attempts + 1, negotiations)
  | .err e :: restOpens, grants, attempts, negotiations =>
    if isPermissionError e then
      match grants with
      | [] => none
      | granted :: restGrants =>
        if granted then
          openRestrictedRun restOpens restGrants (attempts + 1) (negotiations + 1)
        else
          some (-e, attempts + 1, negotiations + 1)
    else
      some (-e, attempts + 1, negotiations)

/-! ## Access negotiation (`requestDeviceAccess` / `stopController`) -/

/-- Where a worker thread is inside `InputController::requestDeviceAccess`:
parked in the first serialization wait loop (before publishing its own
request), parked in the decision wait loop (its request published), or
returned with a result.  The mutex-protected critical sections are modelled
as atomic steps. -/
inductive WorkerPhase
  | waitTurn
  | waitDecision
  | done (granted : Bool)
  deriving DecidableEq, Repr

/-- The shared negotiation record (`m_accessDecisionPending`,
`m_accessGranted`) together with the thread-interruption flag and the
worker's position inside `requestDeviceAccess`. -/
structure NegotiationState where
  interruptionRequested : Bool
  accessDecisionPending : Bool
  accessGranted : Bool
  phase : WorkerPhase
  deriving DecidableEq, Repr

/-- `InputController::stopController`: request interruption, then resolve a
pending access request to denied and wake all waiters. -/
def stopController (s : NegotiationState) : NegotiationState :=
  let s1 := { s with interruptionRequested := true }
  if s1.accessDecisionPending then
    { s1 with accessDecisionPending := false, accessGranted := false }
  else s1

/-- `InputController::deliverAccessConfirmation`. -/
def deliverAccessConfirmation (granted : Bool) (s : NegotiationState) : NegotiationState :=
  if !s.accessDecisionPending then s
  else { s with accessGranted := granted, accessDecisionPending := false }

/-- One scheduling step of the worker inside `requestDeviceAccess`: a parked
worker re-checks its wait condition (`pending && !interrupted`) and either
stays parked, returns `false` on interruption, publishes its request, or
returns `m_accessGranted` once the decision wait is over. -/
def workerStep (s : NegotiationState) : NegotiationState :=
  match s.phase with
  | .waitTurn =>
    if s.accessDecisionPending && !s.interruptionRequested then s
    else if s.interruptionRequested then { s with phase := .done false }
    else { s with accessDecisionPending := true, accessGranted := false,
                  phase := .waitDecision }
  | .waitDecision =>
    if s.accessDecisionPending && !s.interruptionRequested then s
    else { s with phase := .done s.accessGranted }
  | .done _ => s

/-! ## Invariants and demonstration states -/

/-- The virtual-output-sink bookkeeping invariant: the held synthetic key is
one of `{0, KEY_A, KEY_D}`, and the key-down state of the virtual device
mirrors the held-key field (in particular the two keys are never down
together). -/
def KeyInv (s : SessionState) : Prop :=
  (s.heldKeycode = 0 ∨ s.heldKeycode = keycodeA ∨ s.heldKeycode = keycodeD) ∧
  s.downA = (s.heldKeycode == keycodeA) ∧
  s.downD = (s.heldKeycode == keycodeD)

/-- The activation-gate invariant: no synthetic key stays held while the
activation key is not pressed. -/
def ActInv (s : SessionState) : Prop :=
  s.activationPressed = false → s.heldKeycode = 0

/-- A brand-list entry in normal form: fully lower-cased (every code point is
a fixed point of `lowerChar`) with no leading or trailing whitespace. -/
def NormalEntry (e : Str) : Prop :=
  (∀ c ∈ e, lowerChar c = c) ∧
  isSpaceChar (e.headD 0) = false ∧
  isSpaceChar (e.getLastD 0) = false

/-- A filter state with empty lists, used to exercise the setters. -/
def initFilters : FilterState :=
  { pointerAllowedBrands := []
    pointerBlockedBrands := []
    keyboardAllowedBrands := []
    keyboardBlockedBrands := [] }

/-- A session state with the activation key held and `KEY_A` currently
pressed on the virtual device. -/
def demoHeld : SessionState :=
  { activationKeycode := keyLeftShift
    activationPressed := true
    heldKeycode := keycodeA
    lastMotion := 0
    downA := true
    downD := false
    log := [] }

/-- A negotiation state with the worker parked in the decision wait of
`requestDeviceAccess` and its request pending. -/
def negotiationDemo : NegotiationState :=
  { interruptionRequested := false
    accessDecisionPending := true
    accessGranted := false
    phase := WorkerPhase.waitDecision }

/-- A pointer-and-keyboard device whose name contains both a blocked and an
allowed brand substring. -/
def demoDevice : Device :=
  { name := litStr "Virtual Razer Mouse"
    hasPointerCap := true
    hasGestureCap := false
    hasKeyboardCap := true }

/-! ## Theorems -/

/-- C2: `shouldApplyMotion` returns true whenever the randomizer is disabled,
regardless of the stored minimum/maximum; enabled with
minimum = maximum = 0 it always returns false; enabled with
minimum = maximum = 100 it always returns true (for any percent the draw can
produce from `[100, 100]` and any unit draw in `[0, 1)`). -/
theorem shouldApplyMotion_law :
    (∀ (minimum maximum percent : Int) (u : ℚ),
      shouldApplyMotion { enabled := false, minimum := minimum, maximum := maximum }
        percent u = true) ∧
    (∀ (percent : Int) (u : ℚ),
      shouldApplyMotion { enabled := true, minimum := 0, maximum := 0 } percent u = false) ∧
    (∀ (percent : Int) (u : ℚ), 100 ≤ percent → percent ≤ 100 → 0 ≤ u → u < 1 →
      shouldApplyMotion { enabled := true, minimum := 100, maximum := 100 } percent u = true) := by
  refine ⟨fun _ _ _ _ => rfl, fun percent u => by simp [shouldApplyMotion, effectiveRange, clampI], ?_⟩
  intro percent u h1 h2 h0 hu
  have hp : percent = 100 := le_antisymm h2 h1
  subst hp
  simp [shouldApplyMotion, effectiveRange, clampI]
  linarith

/-- Witness for C2 at a concrete draw. -/
theorem shouldApplyMotion_law_witness :
    shouldApplyMotion { enabled := true, minimum := 100, maximum := 100 } 100 (1/2) = true :=
  shouldApplyMotion_law.2.2 100 (1/2) le_rfl le_rfl (by norm_num) (by norm_num)

/-- C4 counterexample: `setRandomizerRange(90, 10)` stores minimum = 90 and
maximum = 10 without swapping, so the stored minimum exceeds the stored
maximum. -/
theorem setRandomizerRange_no_swap :
    (setRandomizerRange 90 10 initRandomizer).minimum = 90 ∧
    (setRandomizerRange 90 10 initRandomizer).maximum = 10 ∧
    ¬((setRandomizerRange 90 10 initRandomizer).minimum ≤
      (setRandomizerRange 90 10 initRandomizer).maximum) := by decide

/-- C4 (amended): after `setRandomizerRange` each stored value lies in
`[0, 100]`, and the ordering normalisation happens at use time: the effective
range `shouldApplyMotion` draws from always satisfies minimum ≤ maximum. -/
theorem setRandomizerRange_clamped (minP maxP : Int) (c : RandomizerConfig) :
    (0 ≤ (setRandomizerRange minP maxP c).minimum ∧
      (setRandomizerRange minP maxP c).minimum ≤ 100) ∧
    (0 ≤ (setRandomizerRange minP maxP c).maximum ∧
      (setRandomizerRange minP maxP c).maximum ≤ 100) ∧
    (effectiveRange (setRandomizerRange minP maxP c).minimum
        (setRandomizerRange minP maxP c).maximum).1 ≤
      (effectiveRange (setRandomizerRange minP maxP c).minimum
        (setRandomizerRange minP maxP c).maximum).2 := by
  unfold setRandomizerRange effectiveRange clampI
  dsimp only
  split_ifs <;> omega

/-- C5 counterexample: with the open failing twice with `EACCES` and the
negotiation granting twice, the loop performs a third open attempt and a
second negotiation round (returning the third attempt's fd), instead of
abandoning the device after the single granted retry failed. -/
theorem openRestricted_not_single_retry :
    openRestrictedRun [OpenResult.err 13, OpenResult.err 13, OpenResult.ok 7]
      [true, true] 0 0 = some (7, 3, 2) ∧
    openRestrictedRun [OpenResult.err 13, OpenResult.err 13, OpenResult.ok 7]
      [true, true] 0 0 ≠ some (-13, 2, 1) := by decide

/-- C5 (amended): on a permission-error failure the negotiator is consulted;
a denial abandons the device immediately (one negotiation, errno returned),
while a grant leads to another full round of the loop — the retry is not
limited to a single attempt. -/
theorem openRestricted_retry_loop (e : Int) (opens : List OpenResult)
    (grants : List Bool) (attempts negotiations : Nat)
    (hperm : isPermissionError e = true) :
    openRestrictedRun (OpenResult.err e :: opens) (false :: grants) attempts negotiations
      = some (-e, attempts + 1, negotiations + 1) ∧
    openRestrictedRun (OpenResult.err e :: opens) (true :: grants) attempts negotiations
      = openRestrictedRun opens grants (attempts + 1) (negotiations + 1) := by
  constructor <;> simp [openRestrictedRun, hperm]

/-- Witness for C5's amended theorem at `EACCES`. -/
theorem openRestricted_retry_loop_witness :
    openRestrictedRun [OpenResult.err 13] [false] 0 0 = some (-13, 1, 1) ∧
    openRestrictedRun [OpenResult.err 13, OpenResult.ok 7] [true] 0 0 = some (7, 2, 1) := by
  refine ⟨(openRestricted_retry_loop 13 [] [] 0 0 (by decide)).1, ?_⟩
  rw [(openRestricted_retry_loop 13 [OpenResult.ok 7] [] 0 0 (by decide)).2]
  decide

/-- C6: after `stopController`, the negotiation wait condition
(`pending && !interrupted`) is false — every parked waiter, present or
future, is unblocked — and the worker, whether it is still queued before
issuing its request or parked on a pending decision, returns `false`
(denied) within two scheduling steps. -/
theorem shutdown_resolves_access_denied (s : NegotiationState) :
    ((stopController s).accessDecisionPending &&
      !(stopController s).interruptionRequested) = false ∧
    (s.phase = WorkerPhase.waitTurn →
      (workerStep (workerStep (stopController s))).phase = WorkerPhase.done false) ∧
    (s.phase = WorkerPhase.waitDecision → s.accessDecisionPending = true →
      (workerStep (workerStep (stopController s))).phase = WorkerPhase.done false) := by
  obtain ⟨i, p, g, ph⟩ := s
  cases p <;> cases ph <;> simp_all [stopController, workerStep]

/-- Witness for C6: shutdown while a request is pending. -/
theorem shutdown_resolves_access_denied_witness :
    (workerStep (workerStep (stopController negotiationDemo))).phase
      = WorkerPhase.done false :=
  (shutdown_resolves_access_denied negotiationDemo).2.2 rfl rfl

/-- If a non-empty entry of the list is contained in the name, the scan loop
reports a match. -/
theorem brandMatch_of_mem {name b : Str} {entries : List Str} (hb : b ∈ entries)
    (hbne : b ≠ []) (hmatch : containsSeg name b = true) :
    brandMatch name entries = true := by
  simp only [brandMatch, List.any_eq_true]
  refine ⟨b, hb, ?_⟩
  simp [List.isEmpty_iff, hbne, hmatch]

/-- C3: a device with the required capability is rejected whenever its
lower-cased name contains a (non-empty) block-list entry, whatever the
allow-list says; and with an empty allow-list and no block-list match it is
accepted.  Both classifiers behave identically. -/
theorem device_filter_block_wins (d : Device) (allowed blocked : List Str) (b : Str) :
    ((d.hasPointerCap = true ∨ d.hasGestureCap = true) → b ∈ blocked → b ≠ [] →
      containsSeg (lowerStr d.name) b = true →
      isPointerDeviceAllowed (some d) allowed blocked = false) ∧
    ((d.hasPointerCap = true ∨ d.hasGestureCap = true) →
      brandMatch (lowerStr d.name) blocked = false →
      isPointerDeviceAllowed (some d) [] blocked = true) ∧
    (d.hasKeyboardCap = true → b ∈ blocked → b ≠ [] →
      containsSeg (lowerStr d.name) b = true →
      isKeyboardDeviceAllowed (some d) allowed blocked = false) ∧
    (d.hasKeyboardCap = true → brandMatch (lowerStr d.name) blocked = false →
      isKeyboardDeviceAllowed (some d) [] blocked = true) := by
  refine ⟨?_, ?_, ?_, ?_⟩
  · intro hcap hb hbne hm
    have hbm := brandMatch_of_mem hb hbne hm
    rcases hcap with h | h <;> simp [isPointerDeviceAllowed, h, hbm]
  · intro hcap hbm
    rcases hcap with h | h <;> simp [isPointerDeviceAllowed, h, hbm]
  · intro hcap hb hbne hm
    have hbm := brandMatch_of_mem hb hbne hm
    simp [isKeyboardDeviceAllowed, hcap, hbm]
  · intro hcap hbm
    simp [isKeyboardDeviceAllowed, hcap, hbm]

/-- Witness for C3: a pointer device named "Virtual Razer Mouse" is rejected
although "razer" is allow-listed, because "virtual" is block-listed; with an
empty allow-list and a non-matching block-list the same device is accepted
as a keyboard. -/
theorem device_filter_block_wins_witness :
    isPointerDeviceAllowed (some demoDevice) [litStr "razer"] [litStr "virtual"] = false ∧
    isKeyboardDeviceAllowed (some demoDevice) [] [litStr "glorious"] = true :=
  ⟨(device_filter_block_wins demoDevice [litStr "razer"] [litStr "virtual"]
      (litStr "virtual")).1 (Or.inl rfl) (by decide) (by decide) (by decide),
   (device_filter_block_wins demoDevice [] [litStr "glorious"]
      (litStr "virtual")).2.2.2 rfl (by decide)⟩

/-- `sendKeyEvent` only touches the virtual-device key-down bookkeeping. -/
@[simp] theorem sendKeyEvent_heldKeycode (s : SessionState) (k v : Nat) :
    (sendKeyEvent s k v).heldKeycode = s.heldKeycode := by
  unfold sendKeyEvent; split_ifs <;> rfl

@[simp] theorem sendKeyEvent_activationPressed (s : SessionState) (k v : Nat) :
    (sendKeyEvent s k v).activationPressed = s.activationPressed := by
  unfold sendKeyEvent; split_ifs <;> rfl

@[simp] theorem sendKeyEvent_lastMotion (s : SessionState) (k v : Nat) :
    (sendKeyEvent s k v).lastMotion = s.lastMotion := by
  unfold sendKeyEvent; split_ifs <;> rfl

@[simp] theorem sendKeyEvent_log (s : SessionState) (k v : Nat) :
    (sendKeyEvent s k v).log = s.log := by
  unfold sendKeyEvent; split_ifs <;> rfl

/-- `releaseActiveKey` always leaves no key held. -/
@[simp] theorem releaseActiveKey_heldKeycode (s : SessionState) :
    (releaseActiveKey s).heldKeycode = 0 := by
  unfold releaseActiveKey
  split_ifs with h
  · exact h
  · rfl

@[simp] theorem releaseActiveKey_activationPressed (s : SessionState) :
    (releaseActiveKey s).activationPressed = s.activationPressed := by
  unfold releaseActiveKey releaseKey
  split_ifs <;> simp

@[simp] theorem releaseActiveKey_lastMotion (s : SessionState) :
    (releaseActiveKey s).lastMotion = s.lastMotion := by
  unfold releaseActiveKey releaseKey
  split_ifs <;> simp

@[simp] theorem releaseActiveKey_log (s : SessionState) :
    (releaseActiveKey s).log = s.log := by
  unfold releaseActiveKey releaseKey
  split_ifs <;> simp

@[simp] theorem pressKey_activationPressed (s : SessionState) (k : Nat) :
    (pressKey s k).activationPressed = s.activationPressed := by
  unfold pressKey
  split_ifs <;> simp

/-- `KeyInv` is preserved by `releaseActiveKey`. -/
theorem keyInv_releaseActiveKey {s : SessionState} (h : KeyInv s) :
    KeyInv (releaseActiveKey s) := by
  obtain ⟨hmem, hA, hD⟩ := h
  rcases hmem with h0 | hk | hk
  · unfold releaseActiveKey
    rw [if_pos h0]
    exact ⟨Or.inl h0, hA, hD⟩
  · unfold releaseActiveKey releaseKey sendKeyEvent
    rw [hk] at hA hD ⊢
    simp [KeyInv, keycodeA, keycodeD] at hA hD ⊢
    exact hD
  · unfold releaseActiveKey releaseKey sendKeyEvent
    rw [hk] at hA hD ⊢
    simp [KeyInv, keycodeA, keycodeD] at hA hD ⊢
    exact hA

/-- `KeyInv` is preserved by `pressKey` for the two bound key codes. -/
theorem keyInv_pressKey {s : SessionState} (h : KeyInv s) (k : Nat)
    (hk : k = keycodeA ∨ k = keycodeD) : KeyInv (pressKey s k) := by
  have hr := keyInv_releaseActiveKey h
  have hr0 := releaseActiveKey_heldKeycode s
  obtain ⟨hmem', hA', hD'⟩ := hr
  rw [hr0] at hA' hD'
  simp [keycodeA, keycodeD] at hA' hD'
  rcases hk with rfl | rfl
  · unfold pressKey
    rw [if_neg (by simp [keycodeA])]
    by_cases he : s.heldKeycode = keycodeA
    · rw [if_pos he]; exact h
    · rw [if_neg he]
      refine ⟨Or.inr (Or.inl rfl), ?_, ?_⟩ <;>
        simp [sendKeyEvent, keycodeA, keycodeD, hA', hD']
  · unfold pressKey
    rw [if_neg (by simp [keycodeD])]
    by_cases he : s.heldKeycode = keycodeD
    · rw [if_pos he]; exact h
    · rw [if_neg he]
      refine ⟨Or.inr (Or.inr rfl), ?_, ?_⟩ <;>
        simp [sendKeyEvent, keycodeA, keycodeD, hA', hD']

/-- `KeyInv` is preserved by the pointer-motion dispatch. -/
theorem keyInv_handlePointerMotion {s : SessionState} (h : KeyInv s)
    (deviceOk : Bool) (dx dxRaw : ℚ) (accept : Bool) (now : Nat) :
    KeyInv (handlePointerMotion s deviceOk dx dxRaw accept now) := by
  simp only [handlePointerMotion]
  split_ifs <;>
    first
      | exact h
      | exact keyInv_releaseActiveKey h
      | exact keyInv_releaseActiveKey (s := { s with lastMotion := now }) h
      | exact keyInv_pressKey (s := { s with lastMotion := now }) h keycodeA (Or.inl rfl)
      | exact keyInv_pressKey (s := { s with lastMotion := now }) h keycodeD (Or.inr rfl)

/-- `KeyInv` is preserved by the keyboard-key dispatch. -/
theorem keyInv_handleKeyboardKey {s : SessionState} (h : KeyInv s)
    (deviceOk : Bool) (key : Nat) (pressed : Bool) :
    KeyInv (handleKeyboardKey s deviceOk key pressed) := by
  unfold handleKeyboardKey
  split_ifs <;>
    first
      | exact h
      | exact keyInv_releaseActiveKey h

/-- `KeyInv` is preserved by applying a pending activation change. -/
theorem keyInv_applyPendingActivation {s : SessionState} (h : KeyInv s)
    (dirty : Bool) (pendingKeycode : Nat) :
    KeyInv (applyPendingActivation s dirty pendingKeycode) := by
  unfold applyPendingActivation
  split_ifs <;>
    first
      | exact h
      | exact keyInv_releaseActiveKey h

/-- `KeyInv` is preserved by the idle-release check. -/
theorem keyInv_idleCheck {s : SessionState} (h : KeyInv s) (now : Nat) :
    KeyInv (idleCheck s now) := by
  unfold idleCheck
  split_ifs <;>
    first
      | exact h
      | exact keyInv_releaseActiveKey h

/-- `KeyInv` is preserved by every dispatched event. -/
theorem keyInv_processEvent {s : SessionState} (h : KeyInv s) (e : Event) :
    KeyInv (processEvent s e) := by
  cases e with
  | pointerMotion deviceOk dx dxRaw accept now =>
      exact keyInv_handlePointerMotion h deviceOk dx dxRaw accept now
  | keyboardKey deviceOk key pressed =>
      exact keyInv_handleKeyboardKey h deviceOk key pressed
  | deviceAdded => exact h
  | deviceRemoved => exact h

/-- `KeyInv` is preserved by a list of dispatched events. -/
theorem keyInv_foldl {s : SessionState} (h : KeyInv s) (events : List Event) :
    KeyInv (events.foldl processEvent s) := by
  induction events generalizing s with
  | nil => exact h
  | cons e rest ih => exact ih (keyInv_processEvent h e)

/-- `KeyInv` is preserved by a whole loop iteration. -/
theorem keyInv_runIteration {s : SessionState} (h : KeyInv s) (dirty : Bool)
    (pendingKeycode : Nat) (events : List Event) (now : Nat) :
    KeyInv (runIteration s dirty pendingKeycode events now) :=
  keyInv_idleCheck (keyInv_foldl (keyInv_applyPendingActivation h dirty pendingKeycode) events) now

/-- `ActInv` is preserved by the pointer-motion dispatch. -/
theorem actInv_handlePointerMotion {s : SessionState} (h : ActInv s)
    (deviceOk : Bool) (dx dxRaw : ℚ) (accept : Bool) (now : Nat) :
    ActInv (handlePointerMotion s deviceOk dx dxRaw accept now) := by
  simp only [handlePointerMotion]
  split_ifs <;>
    first
      | exact h
      | (intro _; simp)
      | (intro hf; rw [pressKey_activationPressed] at hf; simp_all)

/-- `ActInv` is preserved by the keyboard-key dispatch. -/
theorem actInv_handleKeyboardKey {s : SessionState} (h : ActInv s)
    (deviceOk : Bool) (key : Nat) (pressed : Bool) :
    ActInv (handleKeyboardKey s deviceOk key pressed) := by
  simp only [handleKeyboardKey]
  split_ifs <;>
    first
      | exact h
      | (intro _; simp; done)
      | (intro hf; dsimp at hf; simp_all)

/-- `ActInv` is preserved by applying a pending activation change. -/
theorem actInv_applyPendingActivation {s : SessionState} (h : ActInv s)
    (dirty : Bool) (pendingKeycode : Nat) :
    ActInv (applyPendingActivation s dirty pendingKeycode) := by
  simp only [applyPendingActivation]
  split_ifs <;>
    first
      | exact h
      | (intro _; simp)

/-- `ActInv` is preserved by the idle-release check. -/
theorem actInv_idleCheck {s : SessionState} (h : ActInv s) (now : Nat) :
    ActInv (idleCheck s now) := by
  simp only [idleCheck]
  split_ifs <;>
    first
      | exact h
      | (intro _; simp)

/-- `ActInv` is preserved by every dispatched event. -/
theorem actInv_processEvent {s : SessionState} (h : ActInv s) (e : Event) :
    ActInv (processEvent s e) := by
  cases e with
  | pointerMotion deviceOk dx dxRaw accept now =>
      exact actInv_handlePointerMotion h deviceOk dx dxRaw accept now
  | keyboardKey deviceOk key pressed =>
      exact actInv_handleKeyboardKey h deviceOk key pressed
  | deviceAdded => exact h
  | deviceRemoved => exact h

/-- `ActInv` is preserved by a list of dispatched events. -/
theorem actInv_foldl {s : SessionState} (h : ActInv s) (events : List Event) :
    ActInv (events.foldl processEvent s) := by
  induction events generalizing s with
  | nil => exact h
  | cons e rest ih => exact ih (actInv_processEvent h e)

/-- `ActInv` is preserved by a whole loop iteration. -/
theorem actInv_runIteration {s : SessionState} (h : ActInv s) (dirty : Bool)
    (pendingKeycode : Nat) (events : List Event) (now : Nat) :
    ActInv (runIteration s dirty pendingKeycode events now) :=
  actInv_idleCheck (actInv_foldl (actInv_applyPendingActivation h dirty pendingKeycode) events) now

/-- Every reachable iteration-boundary state satisfies both invariants. -/
theorem reachable_invariants {s : SessionState} (h : Reachable s) :
    KeyInv s ∧ ActInv s := by
  induction h with
  | init => exact ⟨⟨Or.inl rfl, rfl, rfl⟩, fun _ => rfl⟩
  | step s dirty pendingKeycode events now _ ih =>
      exact ⟨keyInv_runIteration ih.1 dirty pendingKeycode events now,
        actInv_runIteration ih.2 dirty pendingKeycode events now⟩

/-- C1: in every reachable state the held synthetic key is one of
`{0, KEY_A, KEY_D}` and the two keys are never down simultaneously on the
virtual device; moreover `pressKey` (which first releases whatever is held)
never leaves both keys down. -/
theorem held_key_mutual_exclusion (s : SessionState) (h : Reachable s) :
    (s.heldKeycode = 0 ∨ s.heldKeycode = keycodeA ∨ s.heldKeycode = keycodeD) ∧
    ¬(s.downA = true ∧ s.downD = true) ∧
    (∀ k, k = keycodeA ∨ k = keycodeD →
      ¬((pressKey s k).downA = true ∧ (pressKey s k).downD = true)) := by
  obtain ⟨hkey, _⟩ := reachable_invariants h
  have notBoth : ∀ t : SessionState, KeyInv t → ¬(t.downA = true ∧ t.downD = true) := by
    rintro t ⟨hmem, hA, hD⟩ ⟨ha, hd⟩
    rw [hA] at ha
    rw [hD] at hd
    have h1 : t.heldKeycode = keycodeA := by simpa using ha
    have h2 : t.heldKeycode = keycodeD := by simpa using hd
    rw [h1] at h2
    simp [keycodeA, keycodeD] at h2
  exact ⟨hkey.1, notBoth s hkey, fun k hk => notBoth _ (keyInv_pressKey hkey k hk)⟩

/-- Witness for C1 at the initial state of the loop. -/
theorem held_key_mutual_exclusion_witness :
    (initState.heldKeycode = 0 ∨ initState.heldKeycode = keycodeA ∨
      initState.heldKeycode = keycodeD) ∧
    ¬(initState.downA = true ∧ initState.downD = true) ∧
    (∀ k, k = keycodeA ∨ k = keycodeD →
      ¬((pressKey initState k).downA = true ∧ (pressKey initState k).downD = true)) :=
  held_key_mutual_exclusion initState Reachable.init

/-- C7: in every reachable iteration-boundary state, activation not pressed
implies no key held; the implication is preserved by every single dispatch;
and releasing the activation key while a key is held releases it in that
same dispatch and emits the "paused" status. -/
theorem activation_release_clears_key (s : SessionState) :
    (Reachable s → s.activationPressed = false → s.heldKeycode = 0) ∧
    (∀ e : Event, (s.activationPressed = false → s.heldKeycode = 0) →
      ((processEvent s e).activationPressed = false →
        (processEvent s e).heldKeycode = 0)) ∧
    (s.heldKeycode ≠ 0 → s.activationPressed = true →
      (handleKeyboardKey s true s.activationKeycode false).heldKeycode = 0 ∧
      (handleKeyboardKey s true s.activationKeycode false).log
        = s.log ++ [Status.paused]) := by
  refine ⟨fun h => (reachable_invariants h).2, fun e h => actInv_processEvent h e, ?_⟩
  intro hheld hact
  simp [handleKeyboardKey, hact]

/-- Witness for C7: the invariant at the initial state, and the
release-while-held scenario at a state holding `KEY_A`. -/
theorem activation_release_clears_key_witness :
    (initState.activationPressed = false → initState.heldKeycode = 0) ∧
    ((handleKeyboardKey demoHeld true demoHeld.activationKeycode false).heldKeycode = 0 ∧
      (handleKeyboardKey demoHeld true demoHeld.activationKeycode false).log
        = demoHeld.log ++ [Status.paused]) :=
  ⟨(activation_release_clears_key initState).1 Reachable.init,
   (activation_release_clears_key demoHeld).2.2 (by decide) rfl⟩

/-- C8: at the end of any loop iteration a still-held key implies the idle
timer is within the 150ms window; and a held key with a stale idle timer is
force-released with a "paused" status by the iteration itself, with no
events (in particular no activation-key event) dispatched. -/
theorem idle_release_bound (s : SessionState) (dirty : Bool) (pendingKeycode : Nat)
    (events : List Event) (now : Nat) :
    ((runIteration s dirty pendingKeycode events now).heldKeycode ≠ 0 →
      now - (runIteration s dirty pendingKeycode events now).lastMotion
        ≤ kIdleReleaseInterval) ∧
    (s.heldKeycode ≠ 0 → kIdleReleaseInterval < now - s.lastMotion →
      (runIteration s false 0 [] now).heldKeycode = 0 ∧
      (runIteration s false 0 [] now).log = s.log ++ [Status.paused]) := by
  constructor
  · unfold runIteration idleCheck
    split_ifs with hcond
    · intro hne; simp at hne
    · intro hne
      rcases not_and_or.mp hcond with hc | hc
      · exact absurd hne hc
      · simp only [kIdleReleaseInterval, not_lt] at hc ⊢
        exact hc
  · intro hheld hstale
    have happ : applyPendingActivation s false 0 = s := rfl
    unfold runIteration
    rw [happ]
    simp only [List.foldl_nil]
    unfold idleCheck
    rw [if_pos ⟨hheld, hstale⟩]
    constructor <;> simp

/-- Witness for C8: a fresh timer keeps the key held within the bound, and a
stale timer (200ms since the last qualifying motion) releases it. -/
theorem idle_release_bound_witness :
    (100 - (runIteration demoHeld false 0 [] 100).lastMotion ≤ kIdleReleaseInterval) ∧
    ((runIteration demoHeld false 0 [] 200).heldKeycode = 0 ∧
      (runIteration demoHeld false 0 [] 200).log = demoHeld.log ++ [Status.paused]) :=
  ⟨(idle_release_bound demoHeld false 0 [] 100).1 (by decide),
   (idle_release_bound demoHeld false 0 [] 200).2 (by decide) (by decide)⟩

/-- C10: a qualifying motion sample (device allowed, activation held,
effective |deltaX| at least the threshold) that the randomizer rejects
releases any currently held key in that same dispatch, while still
refreshing the idle timer. -/
theorem rejected_sample_releases (s : SessionState) (dx dxRaw : ℚ) (now : Nat)
    (hact : s.activationPressed = true)
    (hthr : kMotionThreshold ≤ |if |dxRaw| > |dx| then dxRaw else dx|) :
    (handlePointerMotion s true dx dxRaw false now).heldKeycode = 0 ∧
    (handlePointerMotion s true dx dxRaw false now).lastMotion = now := by
  have hnl : ¬(|if |dxRaw| > |dx| then dxRaw else dx| < kMotionThreshold) := not_lt.mpr hthr
  simp [handlePointerMotion, hact, hnl]

/-- Witness for C10: a rejected leftward sample while `KEY_A` is held. -/
theorem rejected_sample_releases_witness :
    (handlePointerMotion demoHeld true (-1) (-1) false 5).heldKeycode = 0 ∧
    (handlePointerMotion demoHeld true (-1) (-1) false 5).lastMotion = 5 :=
  rejected_sample_releases demoHeld (-1) (-1) 5 rfl (by norm_num [kMotionThreshold])

/-- ASCII lowering is idempotent. -/
theorem lowerChar_idem (c : Nat) : lowerChar (lowerChar c) = lowerChar c := by
  unfold lowerChar
  split_ifs <;> omega

/-- `rdropWhile` only removes elements from the tail end. -/
theorem rdropWhile_leads (p : Nat → Bool) (l : Str) : l.rdropWhile p <+: l :=
  List.rdropWhile_prefix p l

/-- Trimming only removes characters. -/
theorem trimStr_subset (y : Str) : trimStr y ⊆ y := by
  intro c hc
  have h1 := rdropWhile_leads isSpaceChar (y.dropWhile isSpaceChar)
  have h2 : y.dropWhile isSpaceChar <:+ y := List.dropWhile_suffix _
  exact h2.sublist.subset (h1.sublist.subset hc)

/-- After `dropWhile p`, the head (if any) fails `p`. -/
theorem dropWhile_headD_not (p : Nat → Bool) (l : Str) :
    p ((l.dropWhile p).headD 0) = false ∨ l.dropWhile p = [] := by
  induction l with
  | nil => exact Or.inr rfl
  | cons a t ih =>
    rw [List.dropWhile_cons]
    by_cases hpa : p a = true
    · rw [if_pos hpa]; exact ih
    · rw [if_neg hpa]
      exact Or.inl (by simpa [Bool.not_eq_true] using hpa)

/-- A non-empty leading part has the same head. -/
theorem headD_of_first_part {l₁ l₂ : Str} (h : l₁ <+: l₂) (hne : l₁ ≠ []) :
    l₁.headD 0 = l₂.headD 0 := by
  obtain ⟨t, rfl⟩ := h
  cases l₁ with
  | nil => exact absurd rfl hne
  | cons a s => rfl

/-- The last element defaulting to 0 is the head of the reverse. -/
theorem getLastD_eq_reverse_headD (l : Str) : l.getLastD 0 = l.reverse.headD 0 := by
  rw [List.getLastD_eq_getLast?, ← List.head?_reverse, List.headD_eq_head?]

/-- The reverse of a trimmed string is the front-trimmed reverse. -/
theorem trimStr_reverse (y : Str) :
    (trimStr y).reverse = (y.dropWhile isSpaceChar).reverse.dropWhile isSpaceChar := by
  simp [trimStr, List.rdropWhile]

/-- A trimmed string never starts with whitespace. -/
theorem trimStr_headD (y : Str) : isSpaceChar ((trimStr y).headD 0) = false := by
  unfold trimStr
  by_cases hne : (y.dropWhile isSpaceChar).rdropWhile isSpaceChar = []
  · rw [hne]; rfl
  · have hpre := rdropWhile_leads isSpaceChar (y.dropWhile isSpaceChar)
    have hune : y.dropWhile isSpaceChar ≠ [] := by
      intro h0
      rw [h0] at hne
      simp [List.rdropWhile] at hne
    rw [headD_of_first_part hpre hne]
    rcases dropWhile_headD_not isSpaceChar y with h | h
    · exact h
    · exact absurd h hune

/-- A trimmed string never ends with whitespace. -/
theorem trimStr_getLastD (y : Str) : isSpaceChar ((trimStr y).getLastD 0) = false := by
  rw [getLastD_eq_reverse_headD, trimStr_reverse]
  rcases dropWhile_headD_not isSpaceChar (y.dropWhile isSpaceChar).reverse with h | h
  · exact h
  · rw [h]; rfl

/-- Trimming the lowering of any string yields a normal-form entry. -/
theorem normalEntry_trim_lower (x : Str) : NormalEntry (trimStr (lowerStr x)) := by
  refine ⟨?_, trimStr_headD (lowerStr x), trimStr_getLastD (lowerStr x)⟩
  intro c hc
  have hcl : c ∈ lowerStr x := trimStr_subset _ hc
  obtain ⟨c0, _, rfl⟩ := List.mem_map.mp hcl
  exact lowerChar_idem c0

/-- The accumulator loop of `normalisedBrands` keeps the output duplicate
free. -/
theorem normalisedBrandsAux_nodup (l : List Str) :
    ∀ acc : List Str, acc.Nodup → (normalisedBrandsAux acc l).Nodup := by
  induction l with
  | nil => intro acc h; exact h
  | cons entry rest ih =>
    intro acc hacc
    simp only [normalisedBrandsAux]
    by_cases hc : (!(trimStr (lowerStr entry)).isEmpty &&
        !acc.contains (trimStr (lowerStr entry))) = true
    · rw [if_pos hc]
      apply ih
      have hnm : trimStr (lowerStr entry) ∉ acc := by
        simp at hc
        exact hc.2
      simp [List.nodup_append, hacc, hnm]
    · rw [if_neg hc]
      exact ih acc hacc

/-- Every property holding for carried-over entries and for all trimmed
lowerings holds for every entry the accumulator loop outputs. -/
theorem normalisedBrandsAux_mem (P : Str → Prop)
    (hP : ∀ x, P (trimStr (lowerStr x))) (l : List Str) :
    ∀ acc : List Str, (∀ e ∈ acc, P e) → ∀ e ∈ normalisedBrandsAux acc l, P e := by
  induction l with
  | nil => intro acc hacc; exact hacc
  | cons entry rest ih =>
    intro acc hacc
    simp only [normalisedBrandsAux]
    by_cases hc : (!(trimStr (lowerStr entry)).isEmpty &&
        !acc.contains (trimStr (lowerStr entry))) = true
    · rw [if_pos hc]
      apply ih
      intro e he
      rcases List.mem_append.mp he with h | h
      · exact hacc e h
      · rw [List.mem_singleton.mp h]
        exact hP entry
    · rw [if_neg hc]
      exact ih acc hacc

/-- `normalisedBrands` output is duplicate free. -/
theorem normalisedBrands_nodup (input : List Str) : (normalisedBrands input).Nodup :=
  normalisedBrandsAux_nodup input [] List.nodup_nil

/-- Every `normalisedBrands` output entry is in normal form. -/
theorem normalisedBrands_normal (input : List Str) :
    ∀ e ∈ normalisedBrands input, NormalEntry e :=
  normalisedBrandsAux_mem NormalEntry normalEntry_trim_lower input [] (by simp)

/-- Force-appending the synthetic device's identity keeps the block list
duplicate free and normalised, and guarantees membership. -/
theorem appendBinder_props (pb : List Str) (hnd : pb.Nodup)
    (hnm : ∀ e ∈ pb, NormalEntry e) :
    binderStr ∈ (if pb.contains binderStr then pb else pb ++ [binderStr]) ∧
    (if pb.contains binderStr then pb else pb ++ [binderStr]).Nodup ∧
    ∀ e ∈ (if pb.contains binderStr then pb else pb ++ [binderStr]), NormalEntry e := by
  have hbn : NormalEntry binderStr := ⟨by decide, by decide, by decide⟩
  by_cases hc : pb.contains binderStr = true
  · rw [if_pos hc]
    exact ⟨by simpa using hc, hnd, hnm⟩
  · rw [if_neg hc]
    have hnotmem : binderStr ∉ pb := by simpa using hc
    refine ⟨by simp, by simp [List.nodup_append, hnd, hnotmem], ?_⟩
    intro e he
    rcases List.mem_append.mp he with h | h
    · exact hnm e h
    · rw [List.mem_singleton.mp h]; exact hbn

/-- C9: after either brand-filter setter, the stored block list for that
category contains the synthetic device's identity string
"mousedirectionbinder" even when the caller's replacement omitted it, and
every stored list (allow and block) is duplicate free with all entries
lower-cased and trimmed. -/
theorem brand_filters_block_self (allowed blocked : List Str) (s : FilterState) :
    (binderStr ∈ (setPointerBrandFilters allowed blocked s).pointerBlockedBrands ∧
      (setPointerBrandFilters allowed blocked s).pointerBlockedBrands.Nodup ∧
      (∀ e ∈ (setPointerBrandFilters allowed blocked s).pointerBlockedBrands,
        NormalEntry e) ∧
      (setPointerBrandFilters allowed blocked s).pointerAllowedBrands.Nodup ∧
      (∀ e ∈ (setPointerBrandFilters allowed blocked s).pointerAllowedBrands,
        NormalEntry e)) ∧
    (binderStr ∈ (setKeyboardBrandFilters allowed blocked s).keyboardBlockedBrands ∧
      (setKeyboardBrandFilters allowed blocked s).keyboardBlockedBrands.Nodup ∧
      (∀ e ∈ (setKeyboardBrandFilters allowed blocked s).keyboardBlockedBrands,
        NormalEntry e) ∧
      (setKeyboardBrandFilters allowed blocked s).keyboardAllowedBrands.Nodup ∧
      (∀ e ∈ (setKeyboardBrandFilters allowed blocked s).keyboardAllowedBrands,
        NormalEntry e)) := by
  have hb := appendBinder_props (normalisedBrands blocked) (normalisedBrands_nodup blocked)
    (normalisedBrands_normal blocked)
  exact ⟨⟨hb.1, hb.2.1, hb.2.2, normalisedBrands_nodup allowed,
      normalisedBrands_normal allowed⟩,
    ⟨hb.1, hb.2.1, hb.2.2, normalisedBrands_nodup allowed,
      normalisedBrands_normal allowed⟩⟩

/-- Witness for C9: the setters applied to concrete lists that omit the
identity string. -/
theorem brand_filters_block_self_witness :
    binderStr ∈ (setPointerBrandFilters [] [] initFilters).pointerBlockedBrands ∧
    NormalEntry binderStr ∧
    binderStr ∈ (setKeyboardBrandFilters [litStr " Logitech "] [litStr "VIRTUAL"]
      initFilters).keyboardBlockedBrands :=
  ⟨(brand_filters_block_self [] [] initFilters).1.1,
   (brand_filters_block_self [] [] initFilters).1.2.2.1 binderStr
     (brand_filters_block_self [] [] initFilters).1.1,
   (brand_filters_block_self [litStr " Logitech "] [litStr "VIRTUAL"] initFilters).2.1⟩
